import Mathlib

/-!
Verification development for the ingredient-normalization and price-resolution
engine of the recipe-finder backend.

Modelling conventions, used consistently below:
* JavaScript strings are lists of `Char` (`String` at the API surface);
* JavaScript numbers are exact rationals (`ℚ`), and `Math.round x` is
  `⌊x + 1/2⌋` (round half towards positive infinity, as in JS);
* JavaScript object-literal tables are association lists looked up by own
  property name, in source insertion order;
* the regular expressions of `IngredientParser.patterns` are anchored and, as
  argued case by case in the comments, their backtracking search is
  deterministic, so each is embedded as a first-match functional parser;
* case-insensitive (`/i`) matching is ASCII case folding, which is exact for
  the ASCII unit and stop-word tokens the regexes contain;
* effectful collaborators (database rows, the external translation API, the
  per-store scraping results) are explicit inputs of the embedded functions.
-/

namespace RecipeFinder

/-- JavaScript whitespace: the character class matched by the regex token
backslash-s and stripped by String.prototype.trim. -/
def isJsSpace (c : Char) : Bool :=
  c == ' ' || c == '\t' || c == '\n' || c == '\u000B' || c == '\u000C' || c == '\r' ||
  c == '\u00A0' || c == '\u1680' ||
  (0x2000 ≤ c.toNat && c.toNat ≤ 0x200A) ||
  c == '\u2028' || c == '\u2029' || c == '\u202F' || c == '\u205F' || c == '\u3000' ||
  c == '\uFEFF'

/-- Line terminators: the characters NOT matched by the regex dot (no s flag). -/
def isLineTerm (c : Char) : Bool :=
  c == '\n' || c == '\r' || c == '\u2028' || c == '\u2029'

/-- ASCII lower-casing; the effect of toLowerCase on the tokens that matter here. -/
def lowerChar (c : Char) : Char :=
  if 'A' ≤ c && c ≤ 'Z' then Char.ofNat (c.toNat + 32) else c

def lowerStr (s : List Char) : List Char := s.map lowerChar

/-- String.prototype.trim: drop JavaScript whitespace from both ends. -/
def jsTrim (s : List Char) : List Char :=
  ((s.dropWhile isJsSpace).reverse.dropWhile isJsSpace).reverse

def strOf (l : List Char) : String := ⟨l⟩

/-- Case-insensitive literal match at the head of the input; returns the
matched source characters and the remaining input. -/
def matchLitCI : List Char → List Char → Option (List Char × List Char)
  | [], s => some ([], s)
  | _ :: _, [] => none
  | p :: ps, c :: cs =>
    if lowerChar c == p then
      match matchLitCI ps cs with
      | some (m, r) => some (c :: m, r)
      | none => none
    else none

/-- Regex word characters, the class matched by backslash-w. -/
def isWordChar (c : Char) : Bool :=
  ('a' ≤ c && c ≤ 'z') || ('A' ≤ c && c ≤ 'Z') || ('0' ≤ c && c ≤ '9') || c == '_'

def headIsWordChar : List Char → Bool
  | [] => false
  | c :: _ => isWordChar c

/-- One global-replace pass of a case-insensitive word-boundary-delimited
literal word with the empty string, as in replace with a boundary-word-boundary
regex and flags g, i.  Every stop word in this code base starts and ends with a
word character, so the boundary tests reduce to: the previous character is not
a word character, and the character following the match is not one.  The
Boolean argument tracks whether the character before the scan position is a
word character (false at the start of the string). -/
def replaceWordCIAux (word : List Char) : ℕ → Bool → List Char → List Char
  | 0, _, s => s
  | _ + 1, _, [] => []
  | fuel + 1, prevW, c :: cs =>
    if 0 < word.length ∧ prevW = false ∧
        (matchLitCI word (c :: cs)).isSome = true ∧
        headIsWordChar ((c :: cs).drop word.length) = false then
      -- matched: emit nothing, continue after the match (last matched char is
      -- a word character, since the word ends in one)
      replaceWordCIAux word fuel true ((c :: cs).drop word.length)
    else c :: replaceWordCIAux word fuel (isWordChar c) cs

/-- The fuel bounds the number of scan steps; each step consumes at least one
character, so a fuel of the string length is always sufficient and the
fuel-exhausted branch is unreachable. -/
def replaceWordCI (word : List Char) (prevW : Bool) (s : List Char) : List Char :=
  replaceWordCIAux word s.length prevW s

/-- Collapse runs of JavaScript whitespace to single spaces, as in replace of
one-or-more-whitespace with a single space under the g flag. -/
def collapseWsAux : Bool → List Char → List Char
  | _, [] => []
  | inWs, c :: cs =>
    if isJsSpace c then
      if inWs then collapseWsAux true cs else ' ' :: collapseWsAux true cs
    else c :: collapseWsAux false cs

def collapseWs (s : List Char) : List Char := collapseWsAux false s

/-- JavaScript String.prototype.includes (substring test). -/
def isInfixB (needle : List Char) : List Char → Bool
  | [] => needle.isEmpty
  | c :: t => needle.isPrefixOf (c :: t) || isInfixB needle t

def strIncludes (s sub : String) : Bool := isInfixB sub.data s.data

/-! ## IngredientParser: conversion tables

Source: backend/services/IngredientParser.js (the version with realistic
per-item weights).  Factors convert to liters (volume), kilograms (weight and
special), pieces (count).  All factors are nonzero, so JavaScript truthiness
tests on a table hit coincide with `Option.isSome` of the lookup. -/

def volumeTab : List (String × ℚ) := [
  ("ml", 0.001), ("milliliter", 0.001), ("millilitre", 0.001),
  ("l", 1), ("liter", 1), ("litre", 1),
  ("cup", 0.237), ("cups", 0.237),
  ("tbsp", 0.0148), ("tablespoon", 0.0148), ("tablespoons", 0.0148), ("tbs", 0.0148),
  ("tsp", 0.00493), ("teaspoon", 0.00493), ("teaspoons", 0.00493),
  ("fl oz", 0.0296), ("fluid ounce", 0.0296),
  ("pint", 0.473), ("quart", 0.946)]

def weightTab : List (String × ℚ) := [
  ("g", 0.001), ("gram", 0.001), ("grams", 0.001),
  ("kg", 1), ("kilogram", 1), ("kilograms", 1),
  ("oz", 0.0283), ("ounce", 0.0283), ("ounces", 0.0283),
  ("lb", 0.454), ("pound", 0.454), ("pounds", 0.454), ("lbs", 0.454)]

def specialTab : List (String × ℚ) := [
  ("pinch", 0.001), ("dash", 0.006), ("sprinkle", 0.002),
  ("hint", 0.0005), ("touch", 0.0005), ("sprig", 0.002), ("sprigs", 0.002)]

def countTab : List (String × ℚ) := [
  ("piece", 1), ("pieces", 1), ("item", 1), ("items", 1),
  ("whole", 1), ("each", 1), ("pc", 1), ("pcs", 1)]

/-- Realistic per-item weights in kg (`this.ingredientWeights`), in source
insertion order. -/
def ingredientWeights : List (String × ℚ) := [
  ("onion", 0.15), ("onions", 0.15), ("shallot", 0.05), ("shallots", 0.05),
  ("carrot", 0.1), ("carrots", 0.1), ("turnip", 0.25), ("turnips", 0.25),
  ("celeriac", 0.8), ("potato", 0.15), ("potatoes", 0.15),
  ("sprig", 0.002), ("sprigs", 0.002), ("thyme", 0.002), ("oregano", 0.002),
  ("rosemary", 0.002), ("parsley", 0.002), ("basil", 0.002),
  ("egg", 0.06), ("eggs", 0.06), ("egg yolk", 0.02), ("egg yolks", 0.02),
  ("egg white", 0.04), ("egg whites", 0.04),
  ("lemon", 0.1), ("lemons", 0.1), ("lime", 0.05), ("limes", 0.05),
  ("apple", 0.18), ("apples", 0.18),
  ("piece", 0.1), ("pieces", 0.1)]

/-! ## IngredientParser: the four parse patterns

The regexes are anchored on both sides.  Backtracking never changes the
outcome relative to the greedy-first-match strategy implemented here:
* shortening a greedy digit run leaves a digit at the continuation point, and
  no unit token, whitespace class or end anchor matches a digit;
* shortening the whitespace run before a unit token leaves a whitespace
  character, and every unit token starts with a letter;
* the ordered alternation is tried alternative by alternative, each with the
  common continuation (one-or-more whitespace then the nonempty rest capture),
  exactly as the engine does.
-/

def headIsDot : List Char → Bool
  | '.' :: _ => true
  | _ => false

/-- The numeral prefix: one-or-more digits with an optional fraction part
(dot followed by one-or-more digits), greedily matched. -/
def matchNumber (s : List Char) : Option (List Char × List Char) :=
  let ds := s.takeWhile Char.isDigit
  let r1 := s.dropWhile Char.isDigit
  if ds.isEmpty then none
  else if headIsDot r1 then
    let r2 := r1.tail
    let fs := r2.takeWhile Char.isDigit
    if fs.isEmpty then some (ds, r1)
    else some (ds ++ '.' :: fs, r2.dropWhile Char.isDigit)
  else some (ds, r1)

/-- The common continuation of patterns 1-3: one-or-more whitespace characters
then the final nonempty capture of dot-characters up to the end anchor.
Returns the rest capture.  The all-whitespace branch is the backtracking case
where the whitespace quantifier yields its final character to the capture; it
is unreachable for suffixes of trimmed input but is kept for faithfulness. -/
def matchRest (s : List Char) : Option (List Char) :=
  let ws := s.takeWhile isJsSpace
  let r := s.dropWhile isJsSpace
  if ws.isEmpty then none
  else if r.isEmpty then
    match s.getLast? with
    | some c => if 2 ≤ s.length && !isLineTerm c then some [c] else none
    | none => none
  else if r.any isLineTerm then none else some r

/-- One alternative of the explicit-unit alternation.  `gap` marks the two
alternatives with an embedded optional-whitespace gap (fl oz, fluid ounce). -/
structure UnitTok where
  pre : String
  gap : Bool
  post : String

/-- The explicit-unit alternation of patterns[0], in source order. -/
def unitToks : List UnitTok := [
  ⟨"kg", false, ""⟩, ⟨"g", false, ""⟩, ⟨"l", false, ""⟩, ⟨"ml", false, ""⟩,
  ⟨"cup", false, ""⟩, ⟨"cups", false, ""⟩, ⟨"tbsp", false, ""⟩, ⟨"tbs", false, ""⟩,
  ⟨"tablespoon", false, ""⟩, ⟨"tablespoons", false, ""⟩,
  ⟨"tsp", false, ""⟩, ⟨"teaspoon", false, ""⟩, ⟨"teaspoons", false, ""⟩,
  ⟨"oz", false, ""⟩, ⟨"ounce", false, ""⟩, ⟨"ounces", false, ""⟩,
  ⟨"lb", false, ""⟩, ⟨"pound", false, ""⟩, ⟨"pounds", false, ""⟩, ⟨"lbs", false, ""⟩,
  ⟨"fl", true, "oz"⟩, ⟨"fluid", true, "ounce"⟩,
  ⟨"pint", false, ""⟩, ⟨"quart", false, ""⟩,
  ⟨"liter", false, ""⟩, ⟨"litre", false, ""⟩,
  ⟨"milliliter", false, ""⟩, ⟨"millilitre", false, ""⟩,
  ⟨"gram", false, ""⟩, ⟨"grams", false, ""⟩,
  ⟨"kilogram", false, ""⟩, ⟨"kilograms", false, ""⟩]

def matchUnitTok (t : UnitTok) (s : List Char) : Option (List Char × List Char) :=
  match matchLitCI t.pre.data s with
  | none => none
  | some (m1, r1) =>
    if t.gap then
      let ws := r1.takeWhile isJsSpace
      let r2 := r1.dropWhile isJsSpace
      match matchLitCI t.post.data r2 with
      | none => none
      | some (m2, r3) => some (m1 ++ ws ++ m2, r3)
    else some (m1, r1)

/-- Try the alternatives in order; an alternative is chosen only if the common
continuation also matches after it, as regex alternation does.  Returns the
captured unit text and the rest capture. -/
def tryUnitToks : List UnitTok → List Char → Option (List Char × List Char)
  | [], _ => none
  | t :: ts, s =>
    match matchUnitTok t s with
    | some (m, r) =>
      match matchRest r with
      | some body => some (m, body)
      | none => tryUnitToks ts s
    | none => tryUnitToks ts s

/-- patterns[0]: numeral, optional whitespace, explicit unit, whitespace, rest. -/
def matchPattern1 (s : List Char) : Option (List Char × List Char × List Char) :=
  match matchNumber s with
  | none => none
  | some (num, r1) =>
    match tryUnitToks unitToks (r1.dropWhile isJsSpace) with
    | some (u, body) => some (num, u, body)
    | none => none

/-- The small-quantity alternation of patterns[1], in source order. -/
def smallToks : List String :=
  ["pinch", "dash", "sprinkle", "hint", "touch", "sprig", "sprigs"]

def trySmallToks : List String → List Char → Option (List Char × List Char)
  | [], _ => none
  | t :: ts, s =>
    match matchLitCI t.data s with
    | some (m, r) =>
      match matchRest r with
      | some body => some (m, body)
      | none => trySmallToks ts s
    | none => trySmallToks ts s

/-- patterns[1]: optional numeral, optional whitespace, small-quantity token,
whitespace, rest.  If the optional numeral was matched but the continuation
fails, re-trying without it cannot succeed (a token never starts with a
digit), so the numeral is committed. -/
def matchPattern2 (s : List Char) : Option (Option (List Char) × List Char × List Char) :=
  match matchNumber s with
  | some (num, r1) =>
    match trySmallToks smallToks (r1.dropWhile isJsSpace) with
    | some (u, body) => some (some num, u, body)
    | none => none
  | none =>
    match trySmallToks smallToks (s.dropWhile isJsSpace) with
    | some (u, body) => some (none, u, body)
    | none => none

/-- patterns[2]: numeral, whitespace, rest (the bare-count form). -/
def matchPattern3 (s : List Char) : Option (List Char × List Char) :=
  match matchNumber s with
  | none => none
  | some (num, r1) =>
    match matchRest r1 with
    | some body => some (num, body)
    | none => none

/-- patterns[3]: the whole (nonempty, line-terminator-free) text. -/
def matchPattern4 (s : List Char) : Option (List Char) :=
  if s.isEmpty then none
  else if s.any isLineTerm then none
  else some s

/-! ## IngredientParser: unit classification and normalization -/

/-- The cleaning applied to a unit before table lookup: toLowerCase, collapse
whitespace runs to single spaces, trim. -/
def cleanUnit (u : String) : String :=
  strOf (jsTrim (collapseWs (lowerStr u.data)))

/-- getUnitType: classify a unit by which conversion table contains it. -/
def getUnitType (unit : String) : String :=
  let c := cleanUnit unit
  if (weightTab.lookup c).isSome then "weight"
  else if (volumeTab.lookup c).isSome then "volume"
  else if (specialTab.lookup c).isSome then "special"
  else if (countTab.lookup c).isSome then "count"
  else "unknown"

structure NormQU where
  quantity : ℚ
  unit : String
deriving DecidableEq

/-- normalizeToStandardUnit.  Inside the parser this is only invoked with
`unitType = getUnitType unit`, so in the first four branches the table lookup
is a hit; `getD 0` is never exercised. -/
def normalizeToStandardUnit (q : ℚ) (unit : String) (unitType : String) : NormQU :=
  let c := cleanUnit unit
  match unitType with
  | "weight" => ⟨q * ((weightTab.lookup c).getD 0), "kg"⟩
  | "volume" => ⟨q * ((volumeTab.lookup c).getD 0), "liter"⟩
  | "special" => ⟨q * ((specialTab.lookup c).getD 0), "kg"⟩
  | "count" => ⟨q * ((countTab.lookup c).getD 0), "piece"⟩
  | _ => ⟨q, "piece"⟩

/-- First entry of the weights table related to the name by substring in
either direction (the partial-match loop of getRealisticWeight). -/
def firstPartialWeight (name : List Char) : List (String × ℚ) → Option ℚ
  | [] => none
  | (k, w) :: rest =>
    if isInfixB k.data name || isInfixB name k.data then some w
    else firstPartialWeight name rest

/-- getRealisticWeight: exact table hit, then first substring match in either
direction, then the default per-item weight (the table's piece entry, 0.1 kg). -/
def getRealisticWeight (ingredientName : String) : ℚ :=
  let name := jsTrim (lowerStr ingredientName.data)
  match ingredientWeights.lookup (strOf name) with
  | some w => w
  | none =>
    match firstPartialWeight name ingredientWeights with
    | some w => w
    | none => (ingredientWeights.lookup "piece").getD 0

/-- normalizeWithContext: the count family is normalized to a realistic mass
in kg; every other family goes through normalizeToStandardUnit. -/
def normalizeWithContext (q : ℚ) (unit : String) (unitType : String)
    (ingredient : String) : NormQU :=
  if unitType == "count" then ⟨q * getRealisticWeight ingredient, "kg"⟩
  else normalizeToStandardUnit q unit unitType

/-- The descriptive stop words removed by cleanIngredientName, in source order. -/
def descriptiveWords : List String := [
  "finely", "chopped", "diced", "sliced", "minced", "grated",
  "fresh", "dried", "frozen", "canned", "cooked", "raw",
  "free-range", "organic", "large", "small", "medium",
  "peeled", "skinless", "boneless", "whole", "ground"]

/-- cleanIngredientName: strip each stop word (word-boundary delimited,
case-insensitive, global) trimming after each pass, then collapse whitespace
and trim. -/
def cleanIngredientName (ingredient : String) : String :=
  let cleaned := descriptiveWords.foldl
    (fun acc w => jsTrim (replaceWordCI w.data false acc)) ingredient.data
  strOf (jsTrim (collapseWs cleaned))

/-! ## IngredientParser: parseIngredient -/

def natOfDigits (l : List Char) : ℕ :=
  l.foldl (fun a c => a * 10 + (c.toNat - 48)) 0

/-- Exact value of a captured numeral (digits with optional fraction part). -/
def ratOfNum (l : List Char) : ℚ :=
  let ip := l.takeWhile Char.isDigit
  let rest := l.dropWhile Char.isDigit
  match rest with
  | '.' :: fs => (natOfDigits ip : ℚ) + (natOfDigits fs : ℚ) / (10 : ℚ) ^ fs.length
  | _ => (natOfDigits ip : ℚ)

/-- parseFloat of the quantity capture followed by the or-1 coercion: an
absent capture gives NaN, a zero numeral gives 0, and both are falsy, so both
default to 1. -/
def jsQuantity (numCapture : Option (List Char)) : ℚ :=
  match numCapture with
  | none => 1
  | some l => if ratOfNum l == 0 then 1 else ratOfNum l

structure ParsedIngredient where
  original : String
  quantity : ℚ
  unit : String
  unitType : String
  ingredient : String
  normalizedQuantity : ℚ
  normalizedUnit : String
  parseSuccess : Bool
  fallbackUsed : Bool
deriving DecidableEq

/-- processMatch, arm for a match of length 4 (quantity, unit, ingredient). -/
def processMatch4 (numCapture : Option (List Char)) (unitCapture bodyCapture original : List Char) :
    ParsedIngredient :=
  let quantity := jsQuantity numCapture
  let unit := strOf (jsTrim (lowerStr unitCapture))
  let ingredient := strOf (jsTrim bodyCapture)
  let unitType := getUnitType unit
  let norm := normalizeWithContext quantity unit unitType ingredient
  { original := strOf original, quantity := quantity, unit := unit, unitType := unitType,
    ingredient := cleanIngredientName ingredient,
    normalizedQuantity := norm.quantity, normalizedUnit := norm.unit,
    parseSuccess := true, fallbackUsed := false }

/-- processMatch, arm for a match of length 3 (quantity and ingredient, unit
defaulted to piece). -/
def processMatch3 (numCapture bodyCapture original : List Char) : ParsedIngredient :=
  let quantity := jsQuantity (some numCapture)
  let ingredient := strOf (jsTrim bodyCapture)
  let unitType := getUnitType "piece"
  let norm := normalizeWithContext quantity "piece" unitType ingredient
  { original := strOf original, quantity := quantity, unit := "piece", unitType := unitType,
    ingredient := cleanIngredientName ingredient,
    normalizedQuantity := norm.quantity, normalizedUnit := norm.unit,
    parseSuccess := true, fallbackUsed := false }

/-- processMatch, arm for a match of length 2 (ingredient only). -/
def processMatch2 (bodyCapture original : List Char) : ParsedIngredient :=
  let ingredient := strOf (jsTrim bodyCapture)
  let unitType := getUnitType "piece"
  let norm := normalizeWithContext 1 "piece" unitType ingredient
  { original := strOf original, quantity := 1, unit := "piece", unitType := unitType,
    ingredient := cleanIngredientName ingredient,
    normalizedQuantity := norm.quantity, normalizedUnit := norm.unit,
    parseSuccess := true, fallbackUsed := false }

/-- The fallback record returned when no pattern matches the trimmed input. -/
def fallbackRecord (trimmed : List Char) : ParsedIngredient :=
  { original := strOf trimmed, quantity := 1, unit := "piece", unitType := "count",
    ingredient := strOf trimmed, normalizedQuantity := 1, normalizedUnit := "piece",
    parseSuccess := false, fallbackUsed := true }

/-- parseIngredient: trim, try the four patterns in order; a pattern-2 match
has a regex match array of length 4 (the optional quantity group may be
undefined), so it goes through the length-4 arm of processMatch. -/
def parseIngredient (input : String) : ParsedIngredient :=
  let trimmed := jsTrim input.data
  match matchPattern1 trimmed with
  | some (num, u, body) => processMatch4 (some num) u body trimmed
  | none =>
  match matchPattern2 trimmed with
  | some (numOpt, u, body) => processMatch4 numOpt u body trimmed
  | none =>
  match matchPattern3 trimmed with
  | some (num, body) => processMatch3 num body trimmed
  | none =>
  match matchPattern4 trimmed with
  | some whole => processMatch2 whole trimmed
  | none => fallbackRecord trimmed

/-- True when none of the four parse patterns matches the trimmed input (the
condition under which parseIngredient answers the fallback record). -/
def noPatternApplies (input : String) : Bool :=
  let trimmed := jsTrim input.data
  (matchPattern1 trimmed).isNone && (matchPattern2 trimmed).isNone &&
  (matchPattern3 trimmed).isNone && (matchPattern4 trimmed).isNone

/-- The family table selected by getConversionFactor; the unknown family has
no table (the undefined member access of the source). -/
def familyTab (family : String) : Option (List (String × ℚ)) :=
  match family with
  | "volume" => some volumeTab
  | "weight" => some weightTab
  | "special" => some specialTab
  | "count" => some countTab
  | _ => none

/-- getConversionFactor: null when the unit families differ, when the family
has no table, or when either unit is missing from the family table; otherwise
the ratio of the two factors to the family's canonical unit.  All table
factors are nonzero, so truthiness of a hit is Option.isSome. -/
def getConversionFactor (fromUnit toUnit : String) : Option ℚ :=
  let fromType := getUnitType fromUnit
  let toType := getUnitType toUnit
  if fromType ≠ toType then none
  else
    match familyTab fromType with
    | none => none
    | some tab =>
      match tab.lookup (cleanUnit fromUnit), tab.lookup (cleanUnit toUnit) with
      | some f, some t => some (f / t)
      | _, _ => none

/-! ## EstonianPriceProvider: the translation-resolution cascade

Source: backend/services/providers/EstonianPriceProvider.js, method
_normalizeIngredient.  The two effectful tiers (persisted-dictionary query and
external translation call) are explicit inputs; both are wrapped in try/catch
in the source, so an error outcome falls through exactly like a miss. -/

/-- The legacy built-in Estonian dictionary (english key, localized term,
category), in source insertion order. -/
def estonianIngredients : List (String × String × String) := [
  ("milk", "piim", "dairy"), ("butter", "või", "dairy"),
  ("eggs", "munad", "dairy"), ("egg", "muna", "dairy"),
  ("egg yolk", "munakollane", "dairy"), ("egg yolks", "munakollased", "dairy"),
  ("cheese", "juust", "dairy"), ("cream", "koor", "dairy"),
  ("chicken", "kana", "meat"), ("beef", "veiseliha", "meat"),
  ("pork", "sealiha", "meat"), ("lamb", "lambaliha", "meat"),
  ("lamb loin", "lambaliha", "meat"), ("lamb loin chops", "lambaliha", "meat"),
  ("fish", "kala", "meat"), ("chicken stock", "kanabuljong", "cooking"),
  ("beef stock", "lihabuljong", "cooking"), ("stock", "buljong", "cooking"),
  ("potatoes", "kartulid", "vegetables"), ("potato", "kartulit", "vegetables"),
  ("charlotte potatoes", "kartulid", "vegetables"), ("tomatoes", "tomatid", "vegetables"),
  ("tomato", "tomat", "vegetables"), ("onions", "sibulad", "vegetables"),
  ("onion", "sibul", "vegetables"), ("shallots", "sibulad", "vegetables"),
  ("shallot", "sibul", "vegetables"), ("carrots", "porgandid", "vegetables"),
  ("carrot", "porgand", "vegetables"), ("turnips", "kaalikas", "vegetables"),
  ("turnip", "kaalikas", "vegetables"), ("celeriac", "juurkeller", "vegetables"),
  ("celery", "seller", "vegetables"), ("green beans", "rohelised oad", "vegetables"),
  ("beans", "oad", "vegetables"), ("thyme", "liivatee", "herbs"),
  ("oregano", "oregano", "herbs"), ("rosemary", "rosmariini", "herbs"),
  ("parsley", "petersell", "herbs"), ("basil", "basiilik", "herbs"),
  ("dill", "till", "herbs"), ("salt", "sool", "spices"),
  ("pepper", "pipar", "spices"), ("black pepper", "must pipar", "spices"),
  ("oil", "õli", "cooking"), ("olive oil", "oliiviõli", "cooking"),
  ("rapeseed oil", "rapsõli", "cooking"), ("flour", "jahu", "grains"),
  ("plain flour", "jahu", "grains"), ("wheat flour", "nisujahu", "grains"),
  ("whole wheat", "täistera nisu", "grains"), ("wheat", "nisu", "grains"),
  ("bread", "leib", "bakery"), ("sugar", "suhkur", "baking"),
  ("caster sugar", "suhkur", "baking"), ("wine", "vein", "alcohol"),
  ("white wine", "valge vein", "alcohol"), ("red wine", "punane vein", "alcohol"),
  ("pastry", "taigen", "baking"), ("puff pastry", "lehttaigen", "baking"),
  ("mustard", "sinep", "condiments"), ("apples", "õunad", "fruits"),
  ("bananas", "banaanid", "fruits"), ("rice", "riis", "grains"),
  ("pasta", "pasta", "grains")]

/-- Stable insertion (before the first entry whose key is not longer) used to
model the stable JavaScript sort with comparator b.length - a.length. -/
def insertByKeyLen (x : String × String × String) :
    List (String × String × String) → List (String × String × String)
  | [] => [x]
  | y :: ys => if y.1.length ≤ x.1.length then x :: y :: ys else y :: insertByKeyLen x ys

/-- The dictionary sorted by key length, descending, ties in insertion order. -/
def sortedEstonianIngredients : List (String × String × String) :=
  estonianIngredients.foldr insertByKeyLen []

/-- Outcome of the tier-1 persisted-dictionary query: the query may throw, may
return no row, or may return a row whose category and confidence columns can
be null or empty (both falsy in the source's default expressions). -/
inductive DbTier where
  | err : DbTier
  | miss : DbTier
  | hit (estonianName : String) (category : Option String) (confidence : Option String) : DbTier
deriving DecidableEq

/-- Outcome of the tier-3 external translation capability: it may throw, or
report a result with a success flag, translated text and confidence. -/
inductive ApiTier where
  | err : ApiTier
  | result (success : Bool) (translated : String) (confidence : String) : ApiTier
deriving DecidableEq

structure TranslationInfo where
  english : String
  estonian : String
  category : String
  searchTerm : String
  translationFound : Bool
  confidence : String
  translationSource : String
deriving DecidableEq

/-- JavaScript value-or-default on a nullable string column (null, undefined
and the empty string are all falsy). -/
def orDefault (v : Option String) (d : String) : String :=
  match v with
  | none => d
  | some s => if s.isEmpty then d else s

/-- First entry of the length-sorted built-in dictionary whose key, or whose
localized term, is a substring of the cleaned name. -/
def findBuiltin (cleaned : String) :
    List (String × String × String) → Option (String × String × String)
  | [] => none
  | e :: rest =>
    if strIncludes cleaned e.1 || strIncludes cleaned e.2.1 then some e
    else findBuiltin cleaned rest

/-- The cascade of _normalizeIngredient after name cleaning: persisted
dictionary, then built-in dictionary, then external translation, then
passthrough.  A tier error (caught in the source) falls through like a miss. -/
def normalizeIngredientCore (cleaned : String) (db : DbTier) (api : ApiTier) :
    TranslationInfo :=
  match db with
  | .hit nm cat conf =>
    { english := cleaned, estonian := nm, category := orDefault cat "other",
      searchTerm := nm, translationFound := true, confidence := orDefault conf "high",
      translationSource := "database" }
  | _ =>
    match findBuiltin cleaned sortedEstonianIngredients with
    | some (k, et, cat) =>
      { english := k, estonian := et, category := cat, searchTerm := et,
        translationFound := true, confidence := "high", translationSource := "legacy" }
    | none =>
      match api with
      | .result true t c =>
        { english := cleaned, estonian := t, category := "other", searchTerm := t,
          translationFound := true, confidence := c, translationSource := "api" }
      | _ =>
        { english := cleaned, estonian := cleaned, category := "other",
          searchTerm := cleaned, translationFound := false, confidence := "low",
          translationSource := "none" }

/-! ### The name cleaning performed at the top of _normalizeIngredient -/

def isSpaceOrSlash (c : Char) : Bool := isJsSpace c || c == '/'

def headIsJsSpace : List Char → Bool
  | [] => false
  | c :: _ => isJsSpace c

/-- The suffix of a list starting at its last JavaScript-whitespace character. -/
def lastWsSplit : List Char → Option (List Char)
  | [] => none
  | c :: cs =>
    match lastWsSplit cs with
    | some t => some t
    | none => if isJsSpace c then some (c :: cs) else none

/-- Removal of a leading quantity: the anchored pattern digits, then a run of
whitespace-or-slash, then a run of word characters, then whitespace, replaced
once (the caret anchor admits a single match even under the g flag).  Greedy
matching with backtracking reduces to: if whitespace follows the maximal
digit, space-or-slash and word-character runs, that is the match; otherwise
the only other candidates restart the final whitespace quantifier inside the
space-or-slash run, at its last whitespace character. -/
def stripLeadingQty (s : List Char) : List Char :=
  let ds := s.takeWhile Char.isDigit
  if ds.isEmpty then s
  else
    let r1 := s.dropWhile Char.isDigit
    let a := r1.takeWhile isSpaceOrSlash
    let afterA := r1.dropWhile isSpaceOrSlash
    let afterB := afterA.dropWhile isWordChar
    if headIsJsSpace afterB then afterB.dropWhile isJsSpace
    else
      match lastWsSplit a with
      | some t => t.dropWhile isJsSpace ++ afterA
      | none => s

/-- The stop-word alternation removed by _normalizeIngredient, in source order. -/
def normalizeStopWords : List String := [
  "cup", "cups", "tsp", "tbsp", "tablespoon", "teaspoon",
  "pound", "pounds", "lb", "oz", "ounce", "clove", "cloves", "sprig", "sprigs",
  "leaf", "leaves", "fresh", "dried", "chopped", "diced", "minced", "crushed",
  "peeled", "large", "medium", "small", "red", "white", "green", "yellow",
  "cooked", "raw", "whole", "ground", "sliced", "grated", "shredded",
  "can", "pot", "handful", "to serve", "garnish", "finely", "roughly"]

/-- First alternative (in order) matching at the head of the input with a word
boundary after it; returns the length of the matched text.  Every alternative
starts and ends with a word character, so the boundary tests are as in
replaceWordCI. -/
def firstAltAt (words : List String) (s : List Char) : Option ℕ :=
  match words with
  | [] => none
  | w :: ws =>
    if 0 < w.data.length ∧ (matchLitCI w.data s).isSome = true ∧
        headIsWordChar (s.drop w.data.length) = false then
      some w.data.length
    else firstAltAt ws s

def replaceAltsCIAux (words : List String) : ℕ → Bool → List Char → List Char
  | 0, _, s => s
  | _ + 1, _, [] => []
  | fuel + 1, prevW, c :: cs =>
    match (if prevW then none else firstAltAt words (c :: cs)) with
    | some n => replaceAltsCIAux words fuel true ((c :: cs).drop n)
    | none => c :: replaceAltsCIAux words fuel (isWordChar c) cs

/-- One global-replace pass of the boundary-delimited alternation of stop
words with the empty string (flags g, i).  As in replaceWordCI, the fuel of
the string length is always sufficient (every matched alternative is
nonempty). -/
def replaceAltsCI (words : List String) (prevW : Bool) (s : List Char) : List Char :=
  replaceAltsCIAux words s.length prevW s

/-- The cleaned lookup name: toLowerCase, strip the leading quantity, strip
the stop words, collapse whitespace, trim. -/
def cleanLookupName (ingredient : String) : String :=
  strOf (jsTrim (collapseWs (replaceAltsCI normalizeStopWords false
    (stripLeadingQty (lowerStr ingredient.data)))))

/-- _normalizeIngredient: clean the raw ingredient text, then run the cascade. -/
def normalizeIngredient (ingredient : String) (db : DbTier) (api : ApiTier) :
    TranslationInfo :=
  normalizeIngredientCore (cleanLookupName ingredient) db api

/-! ## EstonianPriceProvider: price aggregation and recipe cost

The per-store scraping outcomes are an explicit input: the list of the results
the active sources returned (a source answering null contributes nothing).
All quoted amounts are in EUR for country EE; the source's country guard
(which throws for any other country) is outside the scope modelled here, since
every claim concerns the Estonian configuration. -/

/-- The static fallback price table (price, unit), in source insertion order. -/
def fallbackPrices : List (String × ℚ × String) := [
  ("milk", 0.89, "liter"), ("butter", 2.89, "500g"),
  ("eggs", 2.45, "10pcs"), ("egg", 0.25, "piece"),
  ("egg yolk", 0.15, "piece"), ("egg yolks", 0.15, "piece"),
  ("cheese", 8.90, "kg"), ("cream", 1.89, "liter"),
  ("chicken", 5.99, "kg"), ("beef", 12.99, "kg"),
  ("pork", 7.49, "kg"), ("lamb", 16.99, "kg"),
  ("lamb loin", 16.99, "kg"), ("lamb loin chops", 16.99, "kg"),
  ("fish", 8.99, "kg"), ("chicken stock", 3.49, "liter"),
  ("beef stock", 4.49, "liter"), ("stock", 3.99, "liter"),
  ("potatoes", 1.29, "kg"), ("potato", 1.29, "kg"),
  ("charlotte potatoes", 1.49, "kg"), ("tomatoes", 3.49, "kg"),
  ("tomato", 3.49, "kg"), ("onions", 1.19, "kg"),
  ("onion", 1.19, "kg"), ("shallots", 2.89, "kg"),
  ("shallot", 2.89, "kg"), ("carrots", 1.39, "kg"),
  ("carrot", 1.39, "kg"), ("turnips", 1.89, "kg"),
  ("turnip", 1.89, "kg"), ("celeriac", 2.49, "kg"),
  ("celery", 3.29, "kg"), ("green beans", 4.99, "kg"),
  ("beans", 4.99, "kg"), ("thyme", 15.99, "kg"),
  ("oregano", 12.99, "kg"), ("rosemary", 16.99, "kg"),
  ("parsley", 8.99, "kg"), ("basil", 19.99, "kg"),
  ("dill", 9.99, "kg"), ("salt", 0.79, "kg"),
  ("pepper", 24.99, "kg"), ("black pepper", 24.99, "kg"),
  ("oil", 2.99, "liter"), ("olive oil", 4.99, "liter"),
  ("rapeseed oil", 2.79, "liter"), ("flour", 1.29, "kg"),
  ("plain flour", 1.29, "kg"), ("wheat flour", 1.39, "kg"),
  ("whole wheat", 1.89, "kg"), ("wheat", 1.89, "kg"),
  ("bread", 1.45, "loaf"), ("sugar", 1.49, "kg"),
  ("caster sugar", 1.59, "kg"), ("wine", 5.99, "liter"),
  ("white wine", 5.99, "liter"), ("red wine", 6.49, "liter"),
  ("pastry", 3.49, "kg"), ("puff pastry", 3.99, "kg"),
  ("mustard", 2.89, "kg"), ("apples", 2.29, "kg"),
  ("bananas", 1.79, "kg"), ("rice", 2.49, "kg"),
  ("pasta", 1.89, "500g")]

/-- One price observation returned by an active store source. -/
structure SourceResult where
  source : String
  price : ℚ
  unit : String
deriving DecidableEq

/-- JavaScript Math.round: round half towards positive infinity. -/
def jsRound (x : ℚ) : ℤ := ⌊x + 1/2⌋

/-- Rounding a monetary amount to two decimals: Math.round (x * 100) / 100. -/
def round2 (x : ℚ) : ℚ := (jsRound (x * 100) : ℚ) / 100

/-- _calculateActualCost: convert the normalized quantity into the price unit
(mass-volume mismatches use the documented 1:1 density approximation; other
mismatches use getConversionFactor when it yields a truthy factor), then
multiply by the unit price. -/
def calculateActualCost (p : ParsedIngredient) (pricePerUnit : ℚ) (priceUnit : String) : ℚ :=
  let neededQuantity :=
    if p.normalizedUnit == "kg" && priceUnit == "liter" then p.normalizedQuantity
    else if p.normalizedUnit == "liter" && priceUnit == "kg" then p.normalizedQuantity
    else if p.normalizedUnit != priceUnit then
      match getConversionFactor p.normalizedUnit priceUnit with
      | some cf => if cf == 0 then p.normalizedQuantity else p.normalizedQuantity * cf
      | none => p.normalizedQuantity
    else p.normalizedQuantity
  neededQuantity * pricePerUnit

/-- The quote returned by getIngredientPrice (timestamp omitted; country and
currency are the fixed Estonian configuration). -/
structure PriceQuote where
  ingredient : String
  pricePerUnit : ℚ
  unit : String
  currency : String
  recipePortionCost : ℚ
  parsedData : ParsedIngredient
  fullUnitCost : ℚ
  sources : List String
  sourceCount : ℕ
  translationFound : Bool
  confidence : String
  dataSource : String
deriving DecidableEq

/-- getIngredientPrice: with at least one source result, average the source
prices, quote in the first result's unit, and carry the translation
confidence; with none, fall back to the static price table keyed by the
resolved english name (default 2.50 EUR per kg), with confidence medium when
a translation was found and low otherwise. -/
def getIngredientPrice (ingredient : String) (db : DbTier) (api : ApiTier)
    (results : List SourceResult) : PriceQuote :=
  let norm := normalizeIngredient ingredient db api
  match results with
  | r0 :: _ =>
    let averagePrice := ((results.map (fun r => r.price)).sum) / (results.length : ℚ)
    let parsed := parseIngredient ingredient
    let actualCost := calculateActualCost parsed averagePrice r0.unit
    { ingredient := ingredient, pricePerUnit := round2 averagePrice, unit := r0.unit,
      currency := "EUR", recipePortionCost := round2 actualCost, parsedData := parsed,
      fullUnitCost := round2 averagePrice, sources := results.map (fun r => r.source),
      sourceCount := results.length, translationFound := norm.translationFound,
      confidence := norm.confidence, dataSource := "store_scraping" }
  | [] =>
    let fp := (fallbackPrices.lookup norm.english).getD (2.5, "kg")
    let parsed := parseIngredient ingredient
    let actualCost := calculateActualCost parsed fp.1 fp.2
    { ingredient := ingredient, pricePerUnit := fp.1, unit := fp.2, currency := "EUR",
      recipePortionCost := round2 actualCost, parsedData := parsed, fullUnitCost := fp.1,
      sources := ["fallback"], sourceCount := 0, translationFound := norm.translationFound,
      confidence := if norm.translationFound then "medium" else "low",
      dataSource := "fallback_price" }

/-- The external world one recipe-cost calculation observes, keyed by the raw
ingredient line: the persisted-dictionary outcome, the translation-API
outcome, and the list of store results for that line's search term. -/
def PriceEnv : Type := String → DbTier × ApiTier × List SourceResult

def getMultipleIngredientPrices (env : PriceEnv) (ingredients : List String) :
    List PriceQuote :=
  ingredients.map (fun i => getIngredientPrice i (env i).1 (env i).2.1 (env i).2.2)

/-- The result record of calculateRecipeCost (provider metadata omitted). -/
structure RecipeCost where
  totalCost : ℚ
  costPerServing : ℚ
  currency : String
  servings : ℚ
  ingredientBreakdown : List PriceQuote
deriving DecidableEq

/-- calculateRecipeCost: sum the per-ingredient recipePortionCost values (each
already rounded to two decimals inside getIngredientPrice), round the total
and the per-serving figure to two decimals. -/
def calculateRecipeCost (env : PriceEnv) (ingredients : List String) (servings : ℚ) :
    RecipeCost :=
  let ingredientPrices := getMultipleIngredientPrices env ingredients
  let totalCost := (ingredientPrices.map (fun p => p.recipePortionCost)).sum
  { totalCost := round2 totalCost,
    costPerServing := round2 (totalCost / servings),
    currency := "EUR", servings := servings,
    ingredientBreakdown := ingredientPrices }

/-! ## The POST /api/prices/recipe handler

Source: backend/server.js.  The request body carries an optional ingredients
array and an optional numeric servings field.  The handler rejects a missing,
non-array or empty ingredients value with a 400 error; servings is defaulted
through JavaScript truthiness (absent or 0 becomes 4) and is otherwise passed
through unchecked.  The provider call itself does not throw in the Estonian
(EE) configuration modelled here, so the handler's catch block is driven
entirely by the validation throw. -/

def recipeHandler (env : PriceEnv) (ingredients : Option (List String))
    (servings : Option ℚ) : Except String RecipeCost :=
  match ingredients with
  | none => .error "Ingredients array is required and must not be empty"
  | some ings =>
    if ings.isEmpty then .error "Ingredients array is required and must not be empty"
    else
      let targetServings := match servings with
        | none => (4 : ℚ)
        | some v => if v == 0 then 4 else v
      .ok (calculateRecipeCost env ings targetServings)

/-- Discriminator used in statements: the persisted-dictionary tier found
nothing usable (no row, or the query threw and was caught). -/
def dbMissed : DbTier → Bool
  | .hit _ _ _ => false
  | _ => true

/-- Discriminator used in statements: the external-translation tier found
nothing usable (a throw, or a result without the success flag). -/
def apiMissed : ApiTier → Bool
  | .result true _ _ => false
  | _ => true

/-- The per-ingredient cost before the two-decimal rounding that
getIngredientPrice applies to recipePortionCost: exactly the actualCost local
of the source (average source price, or fallback table price, times the
converted parsed quantity). -/
def unroundedPortionCost (ingredient : String) (db : DbTier) (api : ApiTier)
    (results : List SourceResult) : ℚ :=
  match results with
  | r0 :: _ =>
    calculateActualCost (parseIngredient ingredient)
      (((results.map (fun r => r.price)).sum) / (results.length : ℚ)) r0.unit
  | [] =>
    let fp := (fallbackPrices.lookup
      (normalizeIngredient ingredient db api).english).getD (2.5, "kg")
    calculateActualCost (parseIngredient ingredient) fp.1 fp.2

/-- Discriminator used in statements: whether the handler answered with a
success payload (HTTP 200 with success true) rather than a reported failure. -/
def isOkResult : Except String RecipeCost → Bool
  | .ok _ => true
  | .error _ => false

/-- Projection used in statements: the cost per serving of a successful
handler response. -/
def okCostPerServing : Except String RecipeCost → Option ℚ
  | .ok r => some r.costPerServing
  | .error _ => none

/-! ## Helper lemmas

Batteries marks the arithmetic on `Rat` irreducible; re-allow unfolding so
that ground evaluations of the embedding can be checked by `decide`. -/
unseal Rat.mul Rat.inv Rat.ofScientific Rat.add Rat.sub

/-! ### General lemmas -/

theorem dropWhile_eq_self_of_head {p : Char → Bool} {l : List Char}
    (h : ∀ c, l.head? = some c → p c = false) : l.dropWhile p = l := by
  cases l with
  | nil => rfl
  | cons c cs => rw [List.dropWhile_cons, h c rfl]; simp

theorem jsTrim_eq_self {l : List Char}
    (h1 : ∀ c, l.head? = some c → isJsSpace c = false)
    (h2 : ∀ c, l.getLast? = some c → isJsSpace c = false) : jsTrim l = l := by
  unfold jsTrim
  rw [dropWhile_eq_self_of_head h1]
  rw [dropWhile_eq_self_of_head (fun c hc => h2 c (by rwa [List.head?_reverse] at hc))]
  exact List.reverse_reverse l

theorem takeWhile_append_all {p : Char → Bool} (l1 l2 : List Char)
    (h : ∀ c ∈ l1, p c = true) (h2 : ∀ c, l2.head? = some c → p c = false) :
    (l1 ++ l2).takeWhile p = l1 ∧ (l1 ++ l2).dropWhile p = l2 := by
  induction l1 with
  | nil =>
    refine ⟨?_, dropWhile_eq_self_of_head h2⟩
    cases l2 with
    | nil => rfl
    | cons c cs => simp [List.takeWhile_cons, h2 c rfl]
  | cons c cs ih =>
    have hc := h c (by simp)
    have hrest := ih (fun x hx => h x (by simp [hx]))
    simp [List.takeWhile_cons, List.dropWhile_cons, hc, hrest.1, hrest.2]

/-- Math.round is within a half of its argument. -/
theorem jsRound_close (y : ℚ) : |(jsRound y : ℚ) - y| ≤ 1/2 := by
  rw [abs_le]
  constructor
  · have h := Int.lt_floor_add_one (y + 1/2)
    unfold jsRound
    push_cast at h ⊢
    linarith
  · have h := Int.floor_le (y + 1/2)
    unfold jsRound
    push_cast at h ⊢
    linarith

/-- Two-decimal rounding is within half a cent of its argument. -/
theorem round2_close (x : ℚ) : |round2 x - x| ≤ 1/200 := by
  have h := jsRound_close (x * 100)
  have heq : round2 x - x = ((jsRound (x * 100) : ℚ) - x * 100) / 100 := by
    unfold round2; ring
  rw [heq, abs_div, abs_of_pos (by norm_num : (0:ℚ) < (100:ℚ))]
  rw [div_le_iff₀ (by norm_num : (0:ℚ) < (100:ℚ))]
  linarith

/-- Rounding a quotient is within a cent of the quotient of the rounding, for
at least one serving. -/
theorem round2_div_close (S n : ℚ) (h : 1 ≤ n) :
    |round2 (S / n) - round2 S / n| ≤ 1/100 := by
  have hn : (0:ℚ) < n := lt_of_lt_of_le one_pos h
  have h1 := round2_close (S / n)
  have h2 := round2_close S
  have heq : round2 (S / n) - round2 S / n =
      (round2 (S / n) - S / n) + (S - round2 S) / n := by
    field_simp
  calc |round2 (S / n) - round2 S / n|
      ≤ |round2 (S / n) - S / n| + |(S - round2 S) / n| := by
        rw [heq]; exact abs_add _ _
    _ ≤ 1/200 + (1/200) / n := by
        have habs : |S - round2 S| ≤ 1/200 := by rw [abs_sub_comm]; exact h2
        have h3 : |(S - round2 S) / n| ≤ (1/200) / n := by
          rw [abs_div, abs_of_pos hn]
          gcongr
        exact add_le_add h1 h3
    _ ≤ 1/200 + 1/200 := by
        have : (1:ℚ)/200 / n ≤ 1/200 := by
          rw [div_le_iff₀ hn]
          nlinarith
        linarith
    _ = 1/100 := by norm_num

/-! ## Claim theorems -/

/-- Claim C10: getConversionFactor returns null (none) whenever the two unit
families differ or either unit is unrecognized, and returns a number only when
both units are in the same family's conversion table, in which case the number
is the ratio of their factors to the family's canonical unit. -/
theorem C10_conversion_factor (u v : String) :
    (getUnitType u ≠ getUnitType v → getConversionFactor u v = none) ∧
    (getUnitType u = "unknown" → getConversionFactor u v = none) ∧
    (getUnitType v = "unknown" → getConversionFactor u v = none) ∧
    (∀ f, getConversionFactor u v = some f →
      getUnitType u = getUnitType v ∧
      ∃ tab a b, familyTab (getUnitType u) = some tab ∧
        tab.lookup (cleanUnit u) = some a ∧ tab.lookup (cleanUnit v) = some b ∧
        f = a / b) := by
  refine ⟨?_, ?_, ?_, ?_⟩
  · intro h
    simp [getConversionFactor, h]
  · intro h
    by_cases hne : getUnitType u = getUnitType v
    · have hv : getUnitType v = "unknown" := hne.symm.trans h
      simp only [getConversionFactor, hne, ne_eq, not_true_eq_false, if_false, hv]
      rfl
    · simp [getConversionFactor, hne]
  · intro h
    by_cases hne : getUnitType u = getUnitType v
    · simp only [getConversionFactor, hne, ne_eq, not_true_eq_false, if_false, h]
      rfl
    · simp [getConversionFactor, hne]
  · intro f hf
    by_cases hne : getUnitType u = getUnitType v
    · refine ⟨hne, ?_⟩
      simp only [getConversionFactor, hne, ne_eq, not_true_eq_false, if_false] at hf
      cases htab : familyTab (getUnitType v) with
      | none => rw [htab] at hf; simp at hf
      | some tab =>
        rw [htab] at hf
        cases ha : tab.lookup (cleanUnit u) with
        | none => simp [ha] at hf
        | some a =>
          cases hb : tab.lookup (cleanUnit v) with
          | none => simp [ha, hb] at hf
          | some b =>
            simp only [ha, hb, Option.some.injEq] at hf
            exact ⟨tab, a, b, by rw [hne]; exact htab, ha, hb, hf.symm⟩
    · simp [getConversionFactor, hne] at hf

/-- Witness for C10 at concrete units: a cross-family pair yields none, an
unknown unit yields none, and a same-family pair yields the factor ratio. -/
theorem C10_conversion_factor_witness :
    getConversionFactor "kg" "liter" = none ∧
    getConversionFactor "stick" "kg" = none ∧
    getConversionFactor "kg" "g" = some 1000 :=
  ⟨(C10_conversion_factor "kg" "liter").1 (by decide),
   (C10_conversion_factor "stick" "kg").2.1 (by decide),
   by decide⟩

/-- Claim C9: translation resolution is a total cascade: a persisted-
dictionary hit is used first; the built-in dictionary (longest-key-first
substring matching over the sorted dictionary) is consulted only when the
persisted tier found nothing (including when it threw); the external
translation capability is consulted only when both previous tiers missed, and
its failures fall through; and when every tier misses the result is the
passthrough: localized term equal to the (cleaned) input name, found false,
confidence low, source none.  Totality of the Lean function models the
never-throws contract. -/
theorem C9_translation_cascade (cleaned : String) (db : DbTier) (api : ApiTier) :
    (∀ nm cat conf, db = DbTier.hit nm cat conf →
      (normalizeIngredientCore cleaned db api).estonian = nm ∧
      (normalizeIngredientCore cleaned db api).translationSource = "database" ∧
      (normalizeIngredientCore cleaned db api).translationFound = true) ∧
    (dbMissed db = true → ∀ k et cat,
      findBuiltin cleaned sortedEstonianIngredients = some (k, et, cat) →
      (normalizeIngredientCore cleaned db api).estonian = et ∧
      (normalizeIngredientCore cleaned db api).confidence = "high" ∧
      (normalizeIngredientCore cleaned db api).translationSource = "legacy" ∧
      (normalizeIngredientCore cleaned db api).translationFound = true) ∧
    (dbMissed db = true → findBuiltin cleaned sortedEstonianIngredients = none →
      ∀ t c, api = ApiTier.result true t c →
      (normalizeIngredientCore cleaned db api).estonian = t ∧
      (normalizeIngredientCore cleaned db api).confidence = c ∧
      (normalizeIngredientCore cleaned db api).translationSource = "api" ∧
      (normalizeIngredientCore cleaned db api).translationFound = true) ∧
    (dbMissed db = true → findBuiltin cleaned sortedEstonianIngredients = none →
      apiMissed api = true →
      normalizeIngredientCore cleaned db api =
        { english := cleaned, estonian := cleaned, category := "other",
          searchTerm := cleaned, translationFound := false, confidence := "low",
          translationSource := "none" }) := by
  refine ⟨?_, ?_, ?_, ?_⟩
  · intro nm cat conf hdb
    subst hdb
    simp [normalizeIngredientCore]
  · intro hmiss k et cat hfind
    cases db with
    | hit nm cat2 conf => simp [dbMissed] at hmiss
    | miss => simp [normalizeIngredientCore, hfind]
    | err => simp [normalizeIngredientCore, hfind]
  · intro hmiss hnone t c hapi
    subst hapi
    cases db with
    | hit nm cat2 conf => simp [dbMissed] at hmiss
    | miss => simp [normalizeIngredientCore, hnone]
    | err => simp [normalizeIngredientCore, hnone]
  · intro hmiss hnone hapi
    cases db with
    | hit nm cat2 conf => simp [dbMissed] at hmiss
    | miss =>
      cases api with
      | err => simp [normalizeIngredientCore, hnone]
      | result ok t c =>
        cases ok with
        | true => simp [apiMissed] at hapi
        | false => simp [normalizeIngredientCore, hnone]
    | err =>
      cases api with
      | err => simp [normalizeIngredientCore, hnone]
      | result ok t c =>
        cases ok with
        | true => simp [apiMissed] at hapi
        | false => simp [normalizeIngredientCore, hnone]

/-- Witness for C9: a name no tier can translate resolves to the passthrough,
and a builtin-dictionary name resolves at the legacy tier even when the
persisted tier threw. -/
theorem C9_translation_cascade_witness :
    normalizeIngredientCore "unobtainium" DbTier.miss ApiTier.err =
      { english := "unobtainium", estonian := "unobtainium", category := "other",
        searchTerm := "unobtainium", translationFound := false, confidence := "low",
        translationSource := "none" } ∧
    (normalizeIngredientCore "beef" DbTier.err ApiTier.err).estonian = "veiseliha" :=
  ⟨(C9_translation_cascade "unobtainium" DbTier.miss ApiTier.err).2.2.2
      (by decide) (by decide) (by decide),
   ((C9_translation_cascade "beef" DbTier.err ApiTier.err).2.1
      (by decide) "beef" "veiseliha" "meat" (by decide)).1⟩

/-- Claim C3 (amended): when at least one active source returns a price, the
returned pricePerUnit is the arithmetic mean of the contributing source
prices rounded to two decimals, sourceCount is the number of contributing
sources, and the returned confidence is the translation-resolution confidence
carried over from the ingredient normalization — it does not depend on how
many sources agree. -/
theorem C3_aggregation (ingredient : String) (db : DbTier) (api : ApiTier)
    (results : List SourceResult) (h : results ≠ []) :
    (getIngredientPrice ingredient db api results).pricePerUnit =
      round2 ((results.map (fun r => r.price)).sum / (results.length : ℚ)) ∧
    (getIngredientPrice ingredient db api results).sourceCount = results.length ∧
    (getIngredientPrice ingredient db api results).confidence =
      (normalizeIngredient ingredient db api).confidence ∧
    (getIngredientPrice ingredient db api results).sources =
      results.map (fun r => r.source) := by
  cases results with
  | nil => exact absurd rfl h
  | cons r rs => refine ⟨rfl, rfl, rfl, rfl⟩

/-- Counterexample to C3 as stated: two sources agreeing within normal
variance (10.00 and 12.00) but the returned confidence is "low" — the
passthrough translation confidence — not "high". -/
theorem C3_aggregation_cex :
    (getIngredientPrice "unobtainium" DbTier.miss ApiTier.err
      [⟨"selver", 10, "kg"⟩, ⟨"rimi", 12, "kg"⟩]).confidence = "low" ∧
    (getIngredientPrice "unobtainium" DbTier.miss ApiTier.err
      [⟨"selver", 10, "kg"⟩, ⟨"rimi", 12, "kg"⟩]).sourceCount = 2 ∧
    (getIngredientPrice "unobtainium" DbTier.miss ApiTier.err
      [⟨"selver", 10, "kg"⟩, ⟨"rimi", 12, "kg"⟩]).pricePerUnit = 11 := by
  refine ⟨rfl, rfl, by decide⟩

/-- Witness for the amended C3 at a concrete input: two sources at 10.00 and
12.00 average to 11.00 with sourceCount 2. -/
theorem C3_aggregation_witness :
    (getIngredientPrice "1kg Beef" DbTier.miss ApiTier.err
      [⟨"selver", 10, "kg"⟩, ⟨"rimi", 12, "kg"⟩]).pricePerUnit = 11 ∧
    (getIngredientPrice "1kg Beef" DbTier.miss ApiTier.err
      [⟨"selver", 10, "kg"⟩, ⟨"rimi", 12, "kg"⟩]).sourceCount = 2 := by
  have h := C3_aggregation "1kg Beef" DbTier.miss ApiTier.err
    [⟨"selver", 10, "kg"⟩, ⟨"rimi", 12, "kg"⟩] (by decide)
  refine ⟨?_, h.2.1⟩
  rw [h.1]
  decide

/-- Claim C4 (amended): when zero sources produce a price, the quote comes
from the static reference table keyed by the resolved english name (with
default 2.50 EUR per kg when the table also misses), sources is ["fallback"]
and sourceCount is 0; the confidence is "medium" when a translation was found
and "low" only when the translation also missed. -/
theorem C4_fallback (ingredient : String) (db : DbTier) (api : ApiTier) :
    (getIngredientPrice ingredient db api []).pricePerUnit =
      ((fallbackPrices.lookup (normalizeIngredient ingredient db api).english).getD
        (2.5, "kg")).1 ∧
    (getIngredientPrice ingredient db api []).unit =
      ((fallbackPrices.lookup (normalizeIngredient ingredient db api).english).getD
        (2.5, "kg")).2 ∧
    (getIngredientPrice ingredient db api []).sources = ["fallback"] ∧
    (getIngredientPrice ingredient db api []).sourceCount = 0 ∧
    (getIngredientPrice ingredient db api []).confidence =
      (if (normalizeIngredient ingredient db api).translationFound then "medium"
       else "low") ∧
    (getIngredientPrice ingredient db api []).dataSource = "fallback_price" :=
  ⟨rfl, rfl, rfl, rfl, rfl, rfl⟩

/-- Counterexample to C4 as stated: a zero-source quote for an ingredient
whose translation was found carries confidence "medium", not "low". -/
theorem C4_fallback_cex :
    (getIngredientPrice "1kg Beef" DbTier.miss ApiTier.err []).sourceCount = 0 ∧
    (getIngredientPrice "1kg Beef" DbTier.miss ApiTier.err []).confidence = "medium" := by
  refine ⟨rfl, rfl⟩

/-- Claim C5: for every completed recipe-cost calculation at one or more
servings, totalCost equals the sum of the per-ingredient costs of the
breakdown within rounding tolerance (half a cent), costPerServing equals
totalCost divided by servings within rounding tolerance (one cent), and the
breakdown lists, in input order, exactly the quote of each input line. -/
theorem C5_recipe_totals (env : PriceEnv) (ingredients : List String) (servings : ℚ)
    (h : 1 ≤ servings) :
    |(calculateRecipeCost env ingredients servings).totalCost -
      ((calculateRecipeCost env ingredients servings).ingredientBreakdown.map
        (fun p => p.recipePortionCost)).sum| ≤ 1/200 ∧
    |(calculateRecipeCost env ingredients servings).costPerServing -
      (calculateRecipeCost env ingredients servings).totalCost / servings| ≤ 1/100 ∧
    (calculateRecipeCost env ingredients servings).ingredientBreakdown.length =
      ingredients.length ∧
    (∀ i : ℕ, (calculateRecipeCost env ingredients servings).ingredientBreakdown[i]? =
      ingredients[i]?.map
        (fun s => getIngredientPrice s (env s).1 (env s).2.1 (env s).2.2)) := by
  refine ⟨?_, ?_, ?_, ?_⟩
  · exact round2_close _
  · exact round2_div_close _ servings h
  · simp [calculateRecipeCost, getMultipleIngredientPrices]
  · intro i
    simp [calculateRecipeCost, getMultipleIngredientPrices, List.getElem?_map]

/-- Witness for C5 at a concrete two-line recipe with two servings: the exact
totals and the tolerance facts produced by the theorem. -/
theorem C5_recipe_totals_witness :
    |(calculateRecipeCost (fun _ => (DbTier.miss, ApiTier.err, []))
        ["1kg Beef", "pinch Salt"] 2).totalCost -
      ((calculateRecipeCost (fun _ => (DbTier.miss, ApiTier.err, []))
        ["1kg Beef", "pinch Salt"] 2).ingredientBreakdown.map
        (fun p => p.recipePortionCost)).sum| ≤ 1/200 ∧
    |(calculateRecipeCost (fun _ => (DbTier.miss, ApiTier.err, []))
        ["1kg Beef", "pinch Salt"] 2).costPerServing -
      (calculateRecipeCost (fun _ => (DbTier.miss, ApiTier.err, []))
        ["1kg Beef", "pinch Salt"] 2).totalCost / 2| ≤ 1/100 ∧
    (calculateRecipeCost (fun _ => (DbTier.miss, ApiTier.err, []))
        ["1kg Beef", "pinch Salt"] 2).totalCost = 1299/100 :=
  have h := C5_recipe_totals (fun _ => (DbTier.miss, ApiTier.err, []))
    ["1kg Beef", "pinch Salt"] 2 (by norm_num)
  ⟨h.1, h.2.1, by decide⟩

/-- Claim C6 (amended): the recipe-cost endpoint reports a failure exactly
when the ingredients value is missing or the ingredient list is empty.
Non-positive servings are not rejected: servings equal to 0 (or absent) is
silently replaced by the default 4, and any other value — negative values
included — flows into the computation and yields a computed result. -/
theorem C6_recipe_endpoint (env : PriceEnv) (ingredients : Option (List String))
    (servings : Option ℚ) :
    (isOkResult (recipeHandler env ingredients servings) = false ↔
      ingredients = none ∨ ingredients = some []) ∧
    (∀ ings v, ingredients = some ings → ings ≠ [] → servings = some v → v ≠ 0 →
      recipeHandler env ingredients servings =
        Except.ok (calculateRecipeCost env ings v)) ∧
    (∀ ings, ingredients = some ings → ings ≠ [] →
      (servings = none ∨ servings = some 0) →
      recipeHandler env ingredients servings =
        Except.ok (calculateRecipeCost env ings 4)) := by
  refine ⟨?_, ?_, ?_⟩
  · cases ingredients with
    | none => simp [recipeHandler, isOkResult]
    | some ings =>
      cases ings with
      | nil => simp [recipeHandler, isOkResult]
      | cons i is => simp [recipeHandler, isOkResult]
  · intro ings v hi hne hs hv
    subst hi; subst hs
    simp only [recipeHandler, List.isEmpty_iff, if_neg hne]
    simp [hv]
  · intro ings hi hne hs
    subst hi
    rcases hs with hs | hs <;> subst hs <;>
      simp [recipeHandler, List.isEmpty_iff, if_neg hne]

/-- Counterexample to C6 as stated: a nonempty recipe with servings minus two
(and with servings zero) is not reported as a failure — the handler computes a
result, with a negative cost per serving in the first case. -/
theorem C6_recipe_endpoint_cex :
    isOkResult (recipeHandler (fun _ => (DbTier.miss, ApiTier.err, []))
      (some ["salt"]) (some (-2))) = true ∧
    isOkResult (recipeHandler (fun _ => (DbTier.miss, ApiTier.err, []))
      (some ["salt"]) (some 0)) = true ∧
    okCostPerServing (recipeHandler (fun _ => (DbTier.miss, ApiTier.err, []))
      (some ["salt"]) (some (-2))) = some (-(4:ℚ)/100) := by
  refine ⟨rfl, rfl, by decide⟩

/-- Witness for the amended C6: the empty ingredient list is reported as a
failure through the theorem's equivalence. -/
theorem C6_recipe_endpoint_witness :
    isOkResult (recipeHandler (fun _ => (DbTier.miss, ApiTier.err, []))
      (some []) none) = false :=
  (C6_recipe_endpoint (fun _ => (DbTier.miss, ApiTier.err, [])) (some []) none).1.mpr
    (Or.inr rfl)

/-- Claim C8 (amended): each per-ingredient cost is rounded to two decimals
inside getIngredientPrice before accumulation, so totalCost is the rounding of
the sum of the already-rounded per-ingredient costs — not of the sum of the
unrounded values. -/
theorem C8_rounded_accumulation (env : PriceEnv) (ingredients : List String)
    (servings : ℚ) :
    (calculateRecipeCost env ingredients servings).totalCost =
      round2 ((ingredients.map (fun i =>
        round2 (unroundedPortionCost i (env i).1 (env i).2.1 (env i).2.2))).sum) := by
  have hq : ∀ i, (getIngredientPrice i (env i).1 (env i).2.1 (env i).2.2).recipePortionCost
      = round2 (unroundedPortionCost i (env i).1 (env i).2.1 (env i).2.2) := by
    intro i
    cases hres : (env i).2.2 with
    | nil => simp [getIngredientPrice, unroundedPortionCost, hres]
    | cons r rs => simp [getIngredientPrice, unroundedPortionCost, hres]
  simp only [calculateRecipeCost, getMultipleIngredientPrices, List.map_map]
  congr 1
  apply congrArg
  apply List.map_congr_left
  intro i _
  exact hq i

/-- Counterexample to C8 as stated: two lines costing 0.006 EUR each are
rounded to 0.01 EUR before summation, so totalCost is 0.02 EUR, while the
rounding of the sum of the unrounded values would be 0.01 EUR. -/
theorem C8_rounded_accumulation_cex :
    (calculateRecipeCost
        (fun _ => (DbTier.miss, ApiTier.err, [⟨"selver", 1, "kg"⟩]))
        ["6g Salt", "6g Pepper"] 4).totalCost = 2/100 ∧
    round2 (unroundedPortionCost "6g Salt" DbTier.miss ApiTier.err
        [⟨"selver", 1, "kg"⟩] +
      unroundedPortionCost "6g Pepper" DbTier.miss ApiTier.err
        [⟨"selver", 1, "kg"⟩]) = 1/100 ∧
    (2:ℚ)/100 ≠ 1/100 := by
  refine ⟨by decide, by decide, by decide⟩

/-- Claim C1: parseIngredient answers for every input string (totality of the
embedded function models the never-throws contract), and it answers the
best-effort fallback record — quantity 1, unit piece, parseSuccess false,
fallbackUsed true — exactly when no parse pattern applies to the trimmed
input. -/
theorem C1_parse_total (s : String) :
    ((parseIngredient s).parseSuccess = false ↔ noPatternApplies s = true) ∧
    (noPatternApplies s = true →
      parseIngredient s = fallbackRecord (jsTrim s.data)) := by
  unfold parseIngredient noPatternApplies
  cases h1 : matchPattern1 (jsTrim s.data) with
  | some v =>
    obtain ⟨num, u, body⟩ := v
    simp [processMatch4, h1]
  | none =>
    cases h2 : matchPattern2 (jsTrim s.data) with
    | some v =>
      obtain ⟨numOpt, u, body⟩ := v
      simp [processMatch4, h1, h2]
    | none =>
      cases h3 : matchPattern3 (jsTrim s.data) with
      | some v =>
        obtain ⟨num, body⟩ := v
        simp [processMatch3, h1, h2, h3]
      | none =>
        cases h4 : matchPattern4 (jsTrim s.data) with
        | some whole => simp [processMatch2, h1, h2, h3, h4]
        | none => simp [fallbackRecord, h1, h2, h3, h4]

/-- Witness for C1: the empty string (and any all-whitespace string) matches
no pattern and yields the fallback record. -/
theorem C1_parse_total_witness :
    parseIngredient "" = fallbackRecord [] ∧
    (parseIngredient "").parseSuccess = false :=
  ⟨(C1_parse_total "").2 (by decide), (C1_parse_total "").1.mpr (by decide)⟩

/-- Claim C2: a line matched by the bare-count pattern (a numeral followed by
text, with patterns 1 and 2 not applying) is normalized to mass: the
normalized unit is kg and the normalized quantity is the parsed quantity
times the realistic per-item mass of the rest text, where the mass lookup is
an exact table hit first, then the first substring match in either direction,
and the documented default of 0.1 kg when no entry matches. -/
theorem C2_count_to_mass (s : String) (num body : List Char)
    (h1 : matchPattern1 (jsTrim s.data) = none)
    (h2 : matchPattern2 (jsTrim s.data) = none)
    (h3 : matchPattern3 (jsTrim s.data) = some (num, body)) :
    (parseIngredient s).normalizedUnit = "kg" ∧
    (parseIngredient s).normalizedQuantity =
      (parseIngredient s).quantity * getRealisticWeight (strOf (jsTrim body)) ∧
    (parseIngredient s).quantity = jsQuantity (some num) ∧
    (∀ nm w, ingredientWeights.lookup (strOf (jsTrim (lowerStr nm.data))) = some w →
      getRealisticWeight nm = w) ∧
    (∀ nm, ingredientWeights.lookup (strOf (jsTrim (lowerStr nm.data))) = none →
      firstPartialWeight (jsTrim (lowerStr nm.data)) ingredientWeights = none →
      getRealisticWeight nm = 1/10) := by
  have hcount : getUnitType "piece" = "count" := by decide
  refine ⟨?_, ?_, ?_, ?_, ?_⟩
  · simp [parseIngredient, h1, h2, h3, processMatch3, normalizeWithContext, hcount]
  · simp [parseIngredient, h1, h2, h3, processMatch3, normalizeWithContext, hcount]
  · simp [parseIngredient, h1, h2, h3, processMatch3]
  · intro nm w hw
    simp [getRealisticWeight, hw]
  · intro nm hmiss hpart
    simp only [getRealisticWeight, hmiss, hpart]
    decide

/-- Witness for C2, the spec's own example: parse of 2 chopped Carrots is
normalized to kg with quantity 2 times the mass estimate of carrot (0.2 kg). -/
theorem C2_count_to_mass_witness :
    (parseIngredient "2 chopped Carrots").normalizedUnit = "kg" ∧
    (parseIngredient "2 chopped Carrots").normalizedQuantity =
      2 * getRealisticWeight "carrot" ∧
    getRealisticWeight "carrot" = 1/10 := by
  have h := C2_count_to_mass "2 chopped Carrots" "2".data "chopped Carrots".data
    (by decide) (by decide) (by decide)
  exact ⟨h.1, by decide, by decide⟩

theorem digit_not_jsSpace {c : Char} (h : c.isDigit = true) : isJsSpace c = false := by
  simp [Char.isDigit] at h
  obtain ⟨h1, h2⟩ := h
  have h1n : 48 ≤ c.toNat := h1
  have h2n : c.toNat ≤ 57 := h2
  simp only [isJsSpace, Bool.or_eq_false_iff, beq_eq_false_iff_ne, ne_eq,
    Bool.and_eq_false_iff, decide_eq_false_iff_not, not_le]
  repeat' apply And.intro
  all_goals
    first
      | (intro he; subst he;
         first
           | exact absurd h1n (by decide)
           | exact absurd h2n (by decide))
      | omega

theorem matchRest_space (name : List Char) (hne : name ≠ [])
    (hh : ∀ c, name.head? = some c → isJsSpace c = false)
    (hlt : ∀ c ∈ name, isLineTerm c = false) :
    matchRest (' ' :: name) = some name := by
  have htake : (' ' :: name).takeWhile isJsSpace = [' '] := by
    rw [List.takeWhile_cons]
    simp only [show isJsSpace ' ' = true from rfl, if_true]
    cases name with
    | nil => rfl
    | cons c cs => rw [List.takeWhile_cons, hh c rfl]; rfl
  have hdrop : (' ' :: name).dropWhile isJsSpace = name := by
    rw [List.dropWhile_cons]
    simp only [show isJsSpace ' ' = true from rfl, if_true]
    exact dropWhile_eq_self_of_head hh
  have hany : name.any isLineTerm = false := by
    rw [List.any_eq_false]
    intro c hc
    simp [hlt c hc]
  simp only [matchRest, htake, hdrop]
  simp [List.isEmpty_iff, hne, hany]

theorem matchNumber_int (ds rest : List Char) (hds : ds ≠ [])
    (hds2 : ∀ c ∈ ds, c.isDigit = true)
    (hrdig : ∀ c, rest.head? = some c → c.isDigit = false)
    (hrd : headIsDot rest = false) :
    matchNumber (ds ++ rest) = some (ds, rest) := by
  obtain ⟨htake, hdrop⟩ := takeWhile_append_all ds rest hds2 hrdig
  simp only [matchNumber, htake, hdrop]
  simp [List.isEmpty_iff, hds, hrd]

theorem matchNumber_frac (ds fs rest : List Char) (hds : ds ≠ []) (hfs : fs ≠ [])
    (hds2 : ∀ c ∈ ds, c.isDigit = true) (hfs2 : ∀ c ∈ fs, c.isDigit = true)
    (hrdig : ∀ c, rest.head? = some c → c.isDigit = false) :
    matchNumber (ds ++ '.' :: (fs ++ rest)) = some (ds ++ '.' :: fs, rest) := by
  obtain ⟨htake1, hdrop1⟩ := takeWhile_append_all ds ('.' :: (fs ++ rest)) hds2
    (fun c hc => by simp at hc; subst hc; decide)
  obtain ⟨htake2, hdrop2⟩ := takeWhile_append_all fs rest hfs2 hrdig
  simp only [matchNumber, htake1, hdrop1]
  simp [List.isEmpty_iff, hds, hfs, headIsDot, List.tail, htake2, hdrop2]

theorem tryUnitToks_kg (name : List Char) (hmr : matchRest (' ' :: name) = some name) :
    tryUnitToks unitToks ('k' :: 'g' :: ' ' :: name) = some (['k', 'g'], name) := by
  have h1 : matchUnitTok ⟨"kg", false, ""⟩ ('k' :: 'g' :: ' ' :: name) =
      some (['k', 'g'], ' ' :: name) := rfl
  simp only [unitToks, tryUnitToks, h1, hmr]

theorem tryUnitToks_g (name : List Char) (hmr : matchRest (' ' :: name) = some name) :
    tryUnitToks unitToks ('g' :: ' ' :: name) = some (['g'], name) := by
  have h0 : matchUnitTok ⟨"kg", false, ""⟩ ('g' :: ' ' :: name) = none := rfl
  have h1 : matchUnitTok ⟨"g", false, ""⟩ ('g' :: ' ' :: name) =
      some (['g'], ' ' :: name) := rfl
  simp only [unitToks, tryUnitToks, h0, h1, hmr]


theorem getLast?_append_right (l1 l2 : List Char) (h : l2 ≠ []) :
    (l1 ++ l2).getLast? = l2.getLast? := by
  cases hx : l2.getLast? with
  | none => exact absurd (List.getLast?_eq_none_iff.mp hx) h
  | some y => rw [List.getLast?_append, hx]; rfl

theorem parseIngredient_pattern1 (s : String) (num uC body : List Char)
    (hp : matchPattern1 (jsTrim s.data) = some (num, uC, body)) :
    parseIngredient s = processMatch4 (some num) uC body (jsTrim s.data) := by
  simp [parseIngredient, hp]

/-- Claim C7 (amended): for every ingredient line of the form numeral, then
optionally one space, then a unit in kg or g, then a space, then a nonempty
rest (no line terminators, no whitespace at its ends), where the numeral
parses to a nonzero value, the parser returns normalizedUnit kg and
normalizedQuantity equal to the numeral's value times the unit's conversion
factor to kg (1 for kg, 0.001 for g); a numeral parsing to zero is excluded
because the falsy-or default coerces it to quantity 1. -/
theorem C7_mass_normalization (ds fs sep name : List Char) (u : String)
    (hds : ds ≠ []) (hds2 : ∀ c ∈ ds, c.isDigit = true)
    (hfs2 : ∀ c ∈ fs, c.isDigit = true)
    (hsep : sep = [] ∨ sep = [' '])
    (hu : u = "kg" ∨ u = "g")
    (hname : name ≠ [])
    (hnh : ∀ c, name.head? = some c → isJsSpace c = false)
    (hnl : ∀ c, name.getLast? = some c → isJsSpace c = false)
    (hnt : ∀ c ∈ name, isLineTerm c = false)
    (num : List Char) (hnum : num = ds ++ if fs = [] then [] else '.' :: fs)
    (hq : ratOfNum num ≠ 0) :
    (parseIngredient (strOf (num ++ (sep ++ (u.data ++ ' ' :: name))))).normalizedUnit =
      "kg" ∧
    (parseIngredient (strOf (num ++ (sep ++ (u.data ++ ' ' :: name))))).unit = u ∧
    (parseIngredient (strOf (num ++ (sep ++ (u.data ++ ' ' :: name))))).quantity =
      ratOfNum num ∧
    (parseIngredient (strOf (num ++ (sep ++ (u.data ++ ' ' :: name))))).normalizedQuantity =
      ratOfNum num * (if u = "kg" then 1 else 1/1000) := by
  have hmr := matchRest_space name hname hnh hnt
  have htt : tryUnitToks unitToks (u.data ++ ' ' :: name) = some (u.data, name) := by
    rcases hu with hu | hu <;> subst hu
    · exact tryUnitToks_kg name hmr
    · exact tryUnitToks_g name hmr
  have huh : ∀ c, (u.data ++ ' ' :: name).head? = some c →
      (c.isDigit = false ∧ isJsSpace c = false) := by
    rcases hu with hu | hu <;> subst hu <;>
      (intro c hc; simp at hc; subst hc; exact ⟨by decide, by decide⟩)
  have hrh : ∀ c, (sep ++ (u.data ++ ' ' :: name)).head? = some c → c.isDigit = false := by
    rcases hsep with hs | hs <;> subst hs
    · intro c hc; exact (huh c hc).1
    · intro c hc; simp at hc; subst hc; decide
  have hrd : headIsDot (sep ++ (u.data ++ ' ' :: name)) = false := by
    rcases hsep with hs | hs <;> subst hs <;> rcases hu with hu | hu <;> subst hu <;> rfl
  have hdp : (sep ++ (u.data ++ ' ' :: name)).dropWhile isJsSpace =
      u.data ++ ' ' :: name := by
    rcases hsep with hs | hs <;> subst hs
    · exact dropWhile_eq_self_of_head (fun c hc => (huh c hc).2)
    · rw [show ([' '] ++ (u.data ++ ' ' :: name)) = ' ' :: (u.data ++ ' ' :: name) from rfl,
        List.dropWhile_cons]
      simp only [show isJsSpace ' ' = true from rfl, if_true]
      exact dropWhile_eq_self_of_head (fun c hc => (huh c hc).2)
  have hmn : matchNumber (num ++ (sep ++ (u.data ++ ' ' :: name))) =
      some (num, sep ++ (u.data ++ ' ' :: name)) := by
    by_cases hfs0 : fs = []
    · subst hfs0
      have hnum2 : num = ds := by simpa using hnum
      subst hnum2
      exact matchNumber_int _ _ hds hds2 hrh hrd
    · rw [if_neg hfs0] at hnum
      subst hnum
      rw [List.append_assoc ds ('.' :: fs) _, List.cons_append]
      exact matchNumber_frac ds fs _ hds hfs0 hds2 hfs2 hrh
  have hp1 : matchPattern1 (num ++ (sep ++ (u.data ++ ' ' :: name))) =
      some (num, u.data, name) := by
    simp only [matchPattern1, hmn, hdp, htt]
  have hjt : jsTrim (num ++ (sep ++ (u.data ++ ' ' :: name))) =
      num ++ (sep ++ (u.data ++ ' ' :: name)) := by
    apply jsTrim_eq_self
    · intro c hc
      obtain ⟨d, ds2, rfl⟩ := List.exists_cons_of_ne_nil hds
      have hd : d.isDigit = true := hds2 d (by simp)
      rw [hnum] at hc
      simp at hc
      exact digit_not_jsSpace (hc ▸ hd)
    · intro c hc
      rw [getLast?_append_right _ _ (by simp), getLast?_append_right _ _ (by simp),
        getLast?_append_right _ _ (by simp),
        show (' ' :: name) = [' '] ++ name from rfl,
        getLast?_append_right _ _ hname] at hc
      exact hnl c hc
  have hparse := parseIngredient_pattern1 (strOf (num ++ (sep ++ (u.data ++ ' ' :: name))))
    num u.data name (by rw [show (strOf (num ++ (sep ++ (u.data ++ ' ' :: name)))).data =
      num ++ (sep ++ (u.data ++ ' ' :: name)) from rfl, hjt]; exact hp1)
  rw [hparse]
  have hqq : jsQuantity (some num) = ratOfNum num := by
    simp [jsQuantity, hq]
  rcases hu with hu | hu <;> subst hu
  · refine ⟨rfl, rfl, hqq, ?_⟩
    show jsQuantity (some num) * 1 =
      ratOfNum num * (if ("kg" : String) = "kg" then 1 else 1/1000)
    rw [hqq, if_pos rfl]
  · refine ⟨rfl, rfl, hqq, ?_⟩
    show jsQuantity (some num) * (0.001 : ℚ) =
      ratOfNum num * (if ("g" : String) = "kg" then 1 else 1/1000)
    rw [hqq, if_neg (by decide)]
    norm_num

/-- Witness for C7, the spec's own example: 1kg Beef parses to quantity 1 of
unit kg, normalized 1 kg, with the cleaned ingredient containing Beef. -/
theorem C7_mass_normalization_witness :
    (parseIngredient "1kg Beef").normalizedUnit = "kg" ∧
    (parseIngredient "1kg Beef").unit = "kg" ∧
    (parseIngredient "1kg Beef").quantity = 1 ∧
    (parseIngredient "1kg Beef").normalizedQuantity = 1 ∧
    strIncludes (parseIngredient "1kg Beef").ingredient "Beef" = true := by
  have h := C7_mass_normalization ['1'] [] [] "Beef".data "kg"
    (by decide) (by decide) (by decide) (Or.inl rfl) (Or.inl rfl)
    (by decide) (by decide) (by decide) (by decide) ['1'] (by decide) (by decide)
  have he : strOf (['1'] ++ ([] ++ ("kg".data ++ ' ' :: "Beef".data))) = "1kg Beef" := rfl
  rw [he] at h
  exact ⟨h.1, h.2.1, by rw [h.2.2.1]; decide, by rw [h.2.2.2]; decide, by decide⟩

/-- Counterexample to C7 as stated: the line 0g Salt has the claimed form
with numeral 0, so the claim predicts normalizedQuantity 0 x 0.001 = 0, but
parseFloat-or-1 coerces the zero quantity to 1 and the parser answers
0.001 kg. -/
theorem C7_mass_normalization_cex :
    (parseIngredient "0g Salt").normalizedUnit = "kg" ∧
    (parseIngredient "0g Salt").normalizedQuantity = 1/1000 ∧
    ratOfNum "0".data * (1/1000 : ℚ) = 0 ∧ (1/1000 : ℚ) ≠ 0 := by
  refine ⟨by decide, by decide, by decide, by decide⟩

end RecipeFinder
